import Mathlib

/-!
BlackRoom local chat server — verification of the room/session core.

Shallow embedding of `backend/server.py` and `backend/db/models.py`:
the identity resolver (`upsert_device`), room directory (`ensure_room`),
message log (`post_message`, `room_history`), broadcast hub
(`_broadcast_room`, the websocket unsubscribe path), the websocket frame
handler, and the content store (voice/blob upload and retrieval).

Machine conventions used throughout:
* Python `None`-able strings are `Option String`; Python truthiness of such
  a value (`if fingerprint:`) is `truthy` below (`None` and `""` are falsy).
* SQLAlchemy rows are records in insertion order; `db.scalar(select ...)`
  returns the first matching row (`List.find?`); mutating the returned ORM
  object updates that row in place (`List.replace` of the row by its
  updated value); autoincrement primary keys are modelled with explicit
  `next…Id` counters.  `db.commit` / `db.refresh` have no further
  observable effect except where a storage failure is modelled explicitly
  (`storageOk`); a failing commit raises, modelled by an `Except` result.
* Wall-clock timestamps (`datetime.utcnow()`) are abstract `Nat` instants
  passed in as `now`.
* `WebSocket.send_text` is an `async def`.  Where the source awaits it
  (the presence sends in `ws_room`), it is an external effect that either
  succeeds or raises, each connection's behaviour being an input
  `sendOk : Nat → Bool`.  Where the source calls it without `await` (the
  fan-out loop of `_broadcast_room`, `server.py` line 190), the call only
  constructs a coroutine object whose body never runs: the model records
  the created `(ws, payload)` coroutine objects, delivers nothing, and can
  raise nothing.
-/

namespace BlackRoom

/-- Python truthiness of an optional string: `None` and `""` are falsy. -/
def truthy : Option String → Bool
  | none => false
  | some s => !(s == "")

/-- Python `a or b` on optional strings (used for `user_agent or dev.user_agent`). -/
def pyOr (a b : Option String) : Option String :=
  if truthy a then a else b

/-- Python `str.strip()`: drop leading and trailing whitespace. -/
def py_strip (s : String) : String :=
  ⟨((s.data.dropWhile Char.isWhitespace).reverse.dropWhile Char.isWhitespace).reverse⟩

/-- Python `sub in s`: substring containment. -/
def py_in (sub s : String) : Bool :=
  decide (sub.data <:+: s.data)

/-! ## Data model (`backend/db/models.py`) -/

/-- Row of the `devices` table. -/
structure Device where
  id : Nat
  device_fingerprint : Option String
  label : Option String
  user_agent : Option String
  ip_first : Option String
  ip_last : Option String
  first_seen : Nat
  last_seen : Nat
deriving Repr, DecidableEq

/-- Row of the `rooms` table. -/
structure Room where
  id : Nat
  name : String
  created_at : Nat
deriving Repr, DecidableEq

/-- Row of the `messages` table. -/
structure Message where
  id : Nat
  room_id : Nat
  device_id : Option Nat
  content_type : String
  content : Option String
  file_ref : Option String
  ip_at_send : Option String
  ua_at_send : Option String
  created_at : Nat
deriving Repr, DecidableEq

/-- The three durable relations plus autoincrement counters. -/
structure DB where
  devices : List Device
  rooms : List Room
  messages : List Message
  nextDeviceId : Nat
  nextRoomId : Nat
  nextMsgId : Nat
deriving Repr, DecidableEq

/-- A freshly initialised database (`Base.metadata.create_all`). -/
def DB.empty : DB :=
  { devices := [], rooms := [], messages := [],
    nextDeviceId := 1, nextRoomId := 1, nextMsgId := 1 }

/-! ## Identity resolver and room directory (`server.py` lines 70–107) -/

/-- The `if not dev:` branch of `upsert_device` constructs this fresh row
(`first_seen = last_seen = now`, `ip_first = ip_last = ip`). -/
def freshDevice (db : DB) (fingerprint label ip user_agent : Option String)
    (now : Nat) : Device :=
  { id := db.nextDeviceId, device_fingerprint := fingerprint, label := label,
    user_agent := user_agent, ip_first := ip, ip_last := ip,
    first_seen := now, last_seen := now }

/-- The `else:` branch of `upsert_device` applied to the found row: update
the label only when a non-empty, genuinely different label is supplied;
update last-seen metadata when supplied (`or` keeps the prior values). -/
def updateFound (dev : Device) (label ip user_agent : Option String)
    (now : Nat) : Device :=
  let label2 : Option String :=
    match label with
    | some l =>
      if !(l == "") && !(py_strip l == "") && !(some l == dev.label) then
        some (py_strip l)
      else dev.label
    | none => dev.label
  { dev with label := label2,
             user_agent := pyOr user_agent dev.user_agent,
             ip_last := pyOr ip dev.ip_last,
             last_seen := now }

/-- Embeds `upsert_device` (`server.py` lines 70–98).

```python
dev = None
if fingerprint:
    dev = db.scalar(select(Device).where(Device.device_fingerprint == fingerprint))
if not dev and label:
    dev = db.scalar(select(Device).where(Device.label == label))
if not dev:
    dev = Device(device_fingerprint=fingerprint, label=label, user_agent=user_agent,
                 ip_first=ip, ip_last=ip)
    db.add(dev)
else:
    if label and label.strip() and label != dev.label:
        dev.label = label.strip()
    dev.user_agent = user_agent or dev.user_agent
    dev.ip_last = ip or dev.ip_last
    dev.last_seen = datetime.utcnow()
db.commit(); db.refresh(dev)
```
-/
def upsert_device (db : DB) (fingerprint label ip user_agent : Option String)
    (now : Nat) : Device × DB :=
  let dev0 : Option Device :=
    if truthy fingerprint then
      db.devices.find? (fun d => d.device_fingerprint == fingerprint)
    else none
  let dev1 : Option Device :=
    match dev0 with
    | some d => some d
    | none =>
      if truthy label then db.devices.find? (fun d => d.label == label) else none
  match dev1 with
  | none =>
    let d := freshDevice db fingerprint label ip user_agent now
    (d, { db with devices := db.devices ++ [d], nextDeviceId := db.nextDeviceId + 1 })
  | some dev =>
    let dev' := updateFound dev label ip user_agent now
    (dev', { db with devices := db.devices.replace dev dev' })

/-- Embeds `ensure_room` (`server.py` lines 100–107): look up the room by
name, creating it on first reference. -/
def ensure_room (db : DB) (name : String) (now : Nat) : Room × DB :=
  match db.rooms.find? (fun r => r.name == name) with
  | some room => (room, db)
  | none =>
    let room : Room := { id := db.nextRoomId, name := name, created_at := now }
    (room, { db with rooms := db.rooms ++ [room], nextRoomId := db.nextRoomId + 1 })

/-! ## History (`server.py` lines 155–180) -/

/-- Response row of `GET /rooms/{room_name}/history` (Pydantic `MessageOut`). -/
structure MessageOut where
  id : Nat
  room : String
  device_label : Option String
  ip : Option String
  content_type : String
  content : Option String
  file_ref : Option String
  ts : Nat
deriving Repr, DecidableEq

/-- The `ORDER BY created_at DESC` row relation used to sort history rows,
newest first. -/
def tsDesc (a b : Message) : Prop := b.created_at ≤ a.created_at

instance : DecidableRel tsDesc := fun a b => Nat.decLe b.created_at a.created_at

instance : IsTotal Message tsDesc := ⟨fun a b => Nat.le_total b.created_at a.created_at⟩

instance : IsTrans Message tsDesc := ⟨fun _ _ _ h1 h2 => Nat.le_trans h2 h1⟩

/-- Embeds `room_history` (`server.py` lines 155–180): look up the room by
name (unknown room returns `[]`); select the room's messages outer-joined
with their device, newest first, limited to `limit`; then `rows[::-1]`
re-orders them chronologically ascending.  The SQL sort is modelled by the
stable `List.insertionSort` on `tsDesc`. -/
def room_history (db : DB) (room_name : String) (limit : Nat) : List MessageOut :=
  match db.rooms.find? (fun r => r.name == room_name) with
  | none => []
  | some room =>
    let rows :=
      (List.insertionSort tsDesc
        (db.messages.filter (fun m => m.room_id == room.id))).take limit
    rows.reverse.map (fun m =>
      let dev := db.devices.find? (fun d => some d.id == m.device_id)
      { id := m.id, room := room.name,
        device_label := dev.bind (fun d => d.label),
        ip := m.ip_at_send, content_type := m.content_type,
        content := m.content, file_ref := m.file_ref, ts := m.created_at })

/-! ## Room broadcast hub (`server.py` lines 182–258) -/

/-- Embeds `ROOM_CLIENTS`: the process-wide map from room name to the set of live
websocket handles (handles are `Nat`).  Modelled as a total function with
`{}` ≙ every room mapping to the empty set, matching `dict.get(room, set())`. -/
def RoomClients : Type := String → List Nat

/-- Exceptions that the embedded code can raise. -/
inductive PyErr where
  | sendFailed
  | storageWrite
  | attributeError
  | http (code : Nat)
deriving Repr, DecidableEq

/-- Outbound frames (after `json.dumps`): either a persisted-message
broadcast or a presence event. -/
inductive Event where
  | msg (room : String) (msgId : Nat) (deviceId : Nat) (content_type : String)
        (content : Option String) (file_ref : Option String) (ts : Nat)
  | presence (room : String) (count : Nat)
deriving Repr, DecidableEq

/-- The message id carried by an outbound frame, if any. -/
def eventId : Event → Option Nat
  | .msg _ i _ _ _ _ _ => some i
  | .presence _ _ => none

/-- Models an awaited `await ws.send_text(...)` (`server.py` lines 203 and
256): an external effect that succeeds or raises, according to the
connection's behaviour `sendOk`. -/
def send_text (sendOk : Nat → Bool) (ws : Nat) : Except PyErr Unit :=
  if sendOk ws then .ok () else .error .sendFailed

/-- The `for ws in ROOM_CLIENTS.get(room, set())` loop of `_broadcast_room`
(`server.py` lines 188–192).  `_broadcast_room` is a synchronous `def`, but
`WebSocket.send_text` is an `async def`, and the call
`ws.send_text(json.dumps(payload))` is not awaited: it only constructs a
coroutine object — recorded here as the pair `(ws, payload)` — whose body
never runs.  The `try`-body therefore returns normally on every iteration,
the `except Exception` branch is unreachable, and `dead` never acquires an
element.  First component: the coroutine objects created (never executed);
second component: the (always empty) `dead` list. -/
def broadcastLoop (payload : Event) : List Nat → List (Nat × Event) × List Nat
  | [] => ([], [])
  | ws :: rest =>
    let r := broadcastLoop payload rest
    ((ws, payload) :: r.1, r.2)

/-- The `for ws in dead: ROOM_CLIENTS.get(room, set()).discard(ws)` loop:
discard each dead handle from the room's set in turn. -/
def removeDead : List Nat → List Nat → List Nat
  | s, [] => s
  | s, ws :: rest => removeDead (s.filter (fun x => !(x == ws))) rest

/-- Embeds `_broadcast_room` (`server.py` lines 186–195).  Because the send
inside the loop is never awaited (see `broadcastLoop`), the function only
creates one coroutine object per subscriber: nothing is delivered, the
removal loop runs over the always-empty `dead` list and so discards
nothing, and the function cannot raise — the only constructor this
definition can return is `.ok`. -/
def _broadcast_room (clients : RoomClients) (room : String)
    (payload : Event) : Except PyErr (List (Nat × Event) × RoomClients) :=
  let r := broadcastLoop payload (clients room)
  let clients' : RoomClients :=
    fun name => if name = room then removeDead (clients room) r.2 else clients name
  .ok (r.1, clients')

/-- Embeds the `finally:` block of `ws_room` (`server.py` lines 252–258):
on disconnect the handle is discarded from the room's set, and then a
single presence event with the new count is sent — to the departing
websocket itself, inside `try`/`except: pass`.  Returns the new registry
and the list of (recipient, event) deliveries that succeeded. -/
def ws_unsubscribe_finally (clients : RoomClients) (sendOk : Nat → Bool)
    (room : String) (ws : Nat) : RoomClients × List (Nat × Event) :=
  let clients' : RoomClients :=
    fun name => if name = room then (clients room).filter (fun x => !(x == ws)) else clients name
  let ev := Event.presence room (clients' room).length
  match send_text sendOk ws with
  | .ok _ => (clients', [(ws, ev)])
  | .error _ => (clients', [])

/-! ## HTTP ingestion (`server.py` lines 117–152) -/

/-- Request body of `POST /messages` (Pydantic `MessageIn`). -/
structure MessageIn where
  room : String
  content_type : String
  content : Option String
  file_ref : Option String
  fingerprint : Option String
  label : Option String
deriving Repr, DecidableEq

/-- Embeds `post_message` (`server.py` lines 118–152): ensure the room,
resolve the device, append the message (its `db.commit()` raises when the
storage write fails, modelled by `storageOk = false`; nothing catches it,
so the error propagates and the call to `_broadcast_room` below is not
reached), then invoke `_broadcast_room` on the persisted record.  On
success returns the new database, the new registry, the broadcast
coroutine objects created by `_broadcast_room` (never awaited, so never
actually sent), and the assigned message id. -/
def post_message (db : DB) (clients : RoomClients)
    (payload : MessageIn) (ip ua : Option String) (now : Nat) (storageOk : Bool) :
    Except PyErr (DB × RoomClients × List (Nat × Event) × Nat) :=
  let r1 := ensure_room db payload.room now
  let r2 := upsert_device r1.2 payload.fingerprint payload.label ip ua now
  if storageOk then
    let msg : Message :=
      { id := r2.2.nextMsgId, room_id := r1.1.id, device_id := some r2.1.id,
        content_type := payload.content_type, content := payload.content,
        file_ref := payload.file_ref, ip_at_send := ip, ua_at_send := ua,
        created_at := now }
    let db3 : DB := { r2.2 with messages := r2.2.messages ++ [msg],
                                nextMsgId := r2.2.nextMsgId + 1 }
    let data := Event.msg r1.1.name msg.id r2.1.id msg.content_type msg.content
                          msg.file_ref now
    match _broadcast_room clients r1.1.name data with
    | .ok (sent, clients') => .ok (db3, clients', sent, msg.id)
    | .error e => .error e
  else .error .storageWrite

/-! ## Websocket frame handling (`server.py` lines 197–249) -/

/-- The value returned by `json.loads`. -/
inductive Json where
  | obj (fields : List (String × Json))
  | arr (elems : List Json)
  | str (s : String)
  | num (n : Int)
  | bool (b : Bool)
  | null

/-- Python `data.get(k)` on a parsed JSON dict. -/
def jget (fields : List (String × Json)) (k : String) : Option Json :=
  (fields.find? (fun p => p.1 == k)).map (fun p => p.2)

/-- Frame fields consumed by `ws_room` are extracted as strings; a missing
field or JSON `null` is Python `None`.  (Frames carrying non-string values
in these fields are modelled as if the field were absent.) -/
def jstr : Option Json → Option String
  | some (.str s) => some s
  | _ => none

/-- What one iteration of the `while True` receive loop did with a frame. -/
inductive FrameOutcome where
  | discarded            -- `except json.JSONDecodeError: continue`
  | ignored              -- parsed dict whose `type` is not `"msg"`
  | processed (msgId : Nat)
  | raised (e : PyErr)   -- an uncaught exception escapes the loop
deriving Repr, DecidableEq

/-- Embeds one iteration of the `ws_room` receive loop (`server.py` lines
204–249).  `parsed` is the result of `json.loads(raw)` (`.error` for a
`JSONDecodeError`).  A parsed non-dict value reaches `data.get("type")`,
which raises `AttributeError` (lists/strings/numbers have no `.get`) —
that exception is not caught by the loop.  A `{type:"msg"}` dict resolves
the device (no ip/user-agent over raw WS), ensures the room, appends the
message (`db.commit()`, fallible via `storageOk`), and invokes
`_broadcast_room` on the persisted record (the fourth component collects
the broadcast coroutine objects it creates — never awaited, so never
actually sent). -/
def handle_ws_frame (db : DB) (clients : RoomClients)
    (room : String) (parsed : Except Unit Json) (now : Nat) (storageOk : Bool) :
    FrameOutcome × DB × RoomClients × List (Nat × Event) :=
  match parsed with
  | .error _ => (.discarded, db, clients, [])
  | .ok (.obj fields) =>
    match jget fields "type" with
    | some (.str t) =>
      if t == "msg" then
        let r1 := upsert_device db (jstr (jget fields "fingerprint"))
                    (jstr (jget fields "label")) none none now
        let r2 := ensure_room r1.2 room now
        if storageOk then
          let msg : Message :=
            { id := r2.2.nextMsgId, room_id := r2.1.id, device_id := some r1.1.id,
              content_type :=
                (match jstr (jget fields "content_type") with
                 | some s => if s == "" then "text" else s
                 | none => "text"),
              content := jstr (jget fields "content"),
              file_ref := jstr (jget fields "file_ref"),
              ip_at_send := none, ua_at_send := none, created_at := now }
          let db3 : DB := { r2.2 with messages := r2.2.messages ++ [msg],
                                      nextMsgId := r2.2.nextMsgId + 1 }
          let ev := Event.msg r2.1.name msg.id r1.1.id msg.content_type msg.content
                              msg.file_ref now
          match _broadcast_room clients r2.1.name ev with
          | .ok (sent, clients') => (.processed msg.id, db3, clients', sent)
          | .error e => (.raised e, db3, clients, [])
        else (.raised .storageWrite, r2.2, clients, [])
      else (.ignored, db, clients, [])
    | _ => (.ignored, db, clients, [])
  | .ok _ => (.raised .attributeError, db, clients, [])

/-! ## Content store (`server.py` lines 270–377 and 381–479) -/

/-- The content-addressed blob directory (`data/audio` or `data/files`):
object key ↦ stored bytes.  Bytes are `List Nat`. -/
def FileStore : Type := String → Option (List Nat)

/-- Modelled from the spec: `hashlib.sha256(...).hexdigest()` (`_sha256_bytes`
and `sha256_bytes`, `server.py` lines 299–300 and 390–391; the hash
implementation lives in Python's stdlib, outside `src/`).  The spec only
requires "a cryptographic content hash of `bytes`" whose key is
deterministic in the bytes; it is modelled as an injective deterministic
encoding of the byte string, and no claim depends on more. -/
def _sha256_bytes (b : List Nat) : String :=
  b.foldl (fun acc n => acc ++ "-" ++ toString n) "sha256"

/-- Embeds `CT_TO_EXT` (`server.py` lines 283–291). -/
def CT_TO_EXT : List (String × String) :=
  [("audio/ogg; codecs=opus", "ogg"), ("audio/ogg", "ogg"),
   ("audio/webm; codecs=opus", "webm"), ("audio/webm", "webm"),
   ("audio/mp4; codecs=opus", "m4a"), ("audio/mp4", "m4a"), ("audio/m4a", "m4a")]

/-- Embeds `EXT_TO_CT` (`server.py` lines 293–297). -/
def EXT_TO_CT : List (String × String) :=
  [("ogg", "audio/ogg"), ("webm", "audio/webm"), ("m4a", "audio/mp4")]

/-- Python `str.lstrip(".")`: drop leading dots. -/
def py_lstrip_dot (s : String) : String := ⟨s.data.dropWhile (fun c => c == '.')⟩

/-- Metadata of a multipart upload (`fastapi.UploadFile`). -/
structure UploadFile where
  content_type : Option String
  filename : Option String
deriving Repr, DecidableEq

/-- Embeds `_pick_ext` (`server.py` lines 302–310). -/
def _pick_ext (upload : UploadFile) : String :=
  let ct := py_strip (upload.content_type.getD "").toLower
  match CT_TO_EXT.lookup ct with
  | some e => e
  | none =>
    if ct.startsWith "audio/" then
      if py_in "webm" ct then "webm"
      else if py_in "ogg" ct then "ogg"
      else if py_in "mp4" ct || py_in "m4a" ct then "m4a"
      else "webm"
    else "webm"

/-- Modelled from the spec: `mimetypes.guess_extension` (stdlib, outside
`src/`) — "a mapping from declared MIME type to canonical extension".
A small fixed table; it returns `.jpe` for `image/jpeg` (the quirk the
source normalises away) and `none` for unknown types.  Only determinism
matters to the claims. -/
def guess_extension : String → Option String
  | "image/jpeg" => some ".jpe"
  | "image/png" => some ".png"
  | "image/gif" => some ".gif"
  | "video/mp4" => some ".mp4"
  | "application/pdf" => some ".pdf"
  | "text/plain" => some ".txt"
  | _ => none

/-- Modelled from the spec: `pathlib.Path(...).suffix` (stdlib, outside
`src/`) — "parsing the original filename's extension": the last
dot-component, empty for dotless or dotfile names. -/
def path_suffix (name : String) : String :=
  match name.splitOn "." with
  | [] => ""
  | [_] => ""
  | "" :: [_] => ""
  | parts => if (parts.getLastD "").isEmpty then "" else "." ++ parts.getLastD ""

/-- Embeds `pick_ext_from_upload` (`server.py` lines 393–404). -/
def pick_ext_from_upload (upload : UploadFile) : String :=
  let ct := py_strip (upload.content_type.getD "").toLower
  let ext0 := (guess_extension ct).getD ""
  let ext1 := if ext0 == ".jpe" then ".jpg" else ext0
  let ext2 := if ext1 == "" then path_suffix (upload.filename.getD "") else ext1
  let ext3 := if ext2 == "" then ".bin" else ext2
  py_lstrip_dot ext3

/-- Result of the store-blob steps of an upload endpoint. -/
structure PutResult where
  object_key : String
  written : Bool
  fs : FileStore

/-- Embeds the content-store steps of `upload_voice` (`server.py` lines
331–336): hash the bytes, pick the extension, form the object key, and
write the file only when the key does not already exist on disk. -/
def voice_store_put (fs : FileStore) (raw : List Nat) (file : UploadFile) : PutResult :=
  let sha := _sha256_bytes raw
  let ext := _pick_ext file
  let object_key := sha ++ "." ++ ext
  if (fs object_key).isSome then
    { object_key := object_key, written := false, fs := fs }
  else
    { object_key := object_key, written := true,
      fs := fun k => if k = object_key then some raw else fs k }

/-- Embeds the content-store steps of `upload_blob` (`server.py` lines
425–430), identical to the voice path but with the generic extension
picker. -/
def blob_store_put (fs : FileStore) (raw : List Nat) (file : UploadFile) : PutResult :=
  let sha := _sha256_bytes raw
  let ext := pick_ext_from_upload file
  let object_key := sha ++ "." ++ ext
  if (fs object_key).isSome then
    { object_key := object_key, written := false, fs := fs }
  else
    { object_key := object_key, written := true,
      fs := fun k => if k = object_key then some raw else fs k }

/-- Embeds `_safe_key` (`server.py` lines 312–316): strip the key and
reject empty keys and keys containing a path separator or `..` with
HTTP 400, before any filesystem access. -/
def _safe_key (name : String) : Except PyErr String :=
  let name := py_strip name
  if name == "" || py_in "/" name || py_in "\\" name || py_in ".." name then
    .error (.http 400)
  else .ok name

/-- Modelled from the spec: `mimetypes.guess_type` (stdlib, outside `src/`)
— "a content-type derived from the key's extension".  A small fixed table
keyed on the filename's suffix. -/
def guess_type (name : String) : Option String :=
  match (path_suffix name).toLower with
  | ".png" => some "image/png"
  | ".jpg" => some "image/jpeg"
  | ".mp4" => some "video/mp4"
  | ".pdf" => some "application/pdf"
  | ".txt" => some "text/plain"
  | ".ogg" => some "audio/ogg"
  | ".webm" => some "audio/webm"
  | _ => none

/-- Embeds `get_audio` (`server.py` lines 368–377): validate the key via
`_safe_key`, 404 when the blob is absent, else serve it with a media type
from `EXT_TO_CT` (default `audio/webm`).  Returns (key, media type). -/
def get_audio (fs : FileStore) (object_key : String) : Except PyErr (String × String) :=
  match _safe_key object_key with
  | .error e => .error e
  | .ok key =>
    if (fs key).isSome then
      let ext := py_lstrip_dot (path_suffix key).toLower
      .ok (key, (EXT_TO_CT.lookup ext).getD "audio/webm")
    else .error (.http 404)

/-- Embeds `get_blob` (`server.py` lines 468–479): the same validation
inlined (strip; reject empty, separators, `..` with 400), 404 when the
blob is absent, else serve with a media type from `mimetypes.guess_type`
(default `application/octet-stream`). -/
def get_blob (fs : FileStore) (object_key : String) : Except PyErr (String × String) :=
  let key := py_strip object_key
  if key == "" || py_in "/" key || py_in "\\" key || py_in ".." key then
    .error (.http 400)
  else if (fs key).isSome then
    .ok (key, (guess_type key).getD "application/octet-stream")
  else .error (.http 404)

/-! ## Concrete fixtures used by witnesses and counterexamples -/

/-- A database holding one device registered by label only (no fingerprint),
as produced by a first registration without fingerprint. -/
def exDB : DB :=
  { devices := [{ id := 1, device_fingerprint := none, label := some "L",
                  user_agent := none, ip_first := none, ip_last := none,
                  first_seen := 0, last_seen := 0 }],
    rooms := [], messages := [],
    nextDeviceId := 2, nextRoomId := 1, nextMsgId := 1 }

/-- A registry with two live connections subscribed to room `alpha`. -/
def exClients : RoomClients := fun name => if name = "alpha" then [1, 2] else []

/-- A plain text message posted to room `alpha`. -/
def exMsgIn : MessageIn :=
  { room := "alpha", content_type := "text", content := some "hi",
    file_ref := none, fingerprint := none, label := none }

/-- A database with one room and three messages (timestamps 10, 30, 20 in
insertion order). -/
def exHistDB : DB :=
  { devices := [],
    rooms := [{ id := 1, name := "alpha", created_at := 0 }],
    messages :=
      [{ id := 1, room_id := 1, device_id := none, content_type := "text",
         content := some "a", file_ref := none, ip_at_send := none,
         ua_at_send := none, created_at := 10 },
       { id := 2, room_id := 1, device_id := none, content_type := "text",
         content := some "b", file_ref := none, ip_at_send := none,
         ua_at_send := none, created_at := 30 },
       { id := 3, room_id := 1, device_id := none, content_type := "text",
         content := some "c", file_ref := none, ip_at_send := none,
         ua_at_send := none, created_at := 20 }],
    nextDeviceId := 1, nextRoomId := 2, nextMsgId := 4 }

/-! ## Helper lemmas -/

theorem broadcastLoop_eq (payload : Event) (conns : List Nat) :
    broadcastLoop payload conns =
      (conns.map (fun ws => (ws, payload)), []) := by
  induction conns with
  | nil => rfl
  | cons ws rest ih => simp [broadcastLoop, ih]

theorem replace_cons_of_ne {α : Type} [BEq α] {a b c : α} {t : List α}
    (h : (b == a) = false) : (a :: t).replace b c = a :: t.replace b c := by
  simp [List.replace_cons, h]

theorem broadcast_room_eq (clients : RoomClients)
    (room : String) (payload : Event) :
    _broadcast_room clients room payload =
      .ok ((clients room).map (fun ws => (ws, payload)),
           fun name => if name = room then clients room
                       else clients name) := by
  simp only [_broadcast_room, broadcastLoop_eq, removeDead]

theorem find?_replace_found {p : Device → Bool} {l : List Device} {d d' : Device}
    (h : l.find? p = some d) (hd' : p d' = true) :
    (l.replace d d').find? p = some d' := by
  induction l with
  | nil => simp at h
  | cons a t ih =>
    by_cases hpa : p a
    · rw [List.find?_cons_of_pos _ hpa] at h
      injection h with h
      subst h
      rw [List.replace_cons_self, List.find?_cons_of_pos _ hd']
    · rw [List.find?_cons_of_neg _ hpa] at h
      have hpd : p d = true := List.find?_some h
      have hne : (d == a) = false := by
        apply beq_eq_false_iff_ne.mpr
        intro e
        rw [← e] at hpa
        exact hpa hpd
      rw [replace_cons_of_ne hne, List.find?_cons_of_neg _ hpa]
      exact ih h

theorem countP_replace_found {p q : Device → Bool} {l : List Device} {d d' : Device}
    (h : l.find? p = some d) (hq : q d' = q d) :
    (l.replace d d').countP q = l.countP q := by
  induction l with
  | nil => simp at h
  | cons a t ih =>
    by_cases hpa : p a
    · rw [List.find?_cons_of_pos _ hpa] at h
      injection h with h
      subst h
      rw [List.replace_cons_self]
      simp [List.countP_cons, hq]
    · rw [List.find?_cons_of_neg _ hpa] at h
      have hpd : p d = true := List.find?_some h
      have hne : (d == a) = false := by
        apply beq_eq_false_iff_ne.mpr
        intro e
        rw [← e] at hpa
        exact hpa hpd
      rw [replace_cons_of_ne hne]
      simp [List.countP_cons, ih h]

theorem countP_fp_replace_updateFound {p : Device → Bool} {l : List Device} {d : Device}
    (f : String) (label ip ua : Option String) (now : Nat)
    (h : l.find? p = some d) :
    (l.replace d (updateFound d label ip ua now)).countP
        (fun x => x.device_fingerprint == some f)
      = l.countP (fun x => x.device_fingerprint == some f) :=
  countP_replace_found h rfl

theorem mem_of_mem_replace {l : List Device} {d d' x : Device}
    (h : x ∈ l.replace d d') : x ∈ l ∨ x = d' := by
  induction l with
  | nil => simp [List.replace] at h
  | cons a t ih =>
    cases hda : (d == a) with
    | true =>
      rw [List.replace_cons, hda] at h
      rcases List.mem_cons.mp h with h | h
      · exact Or.inr h
      · exact Or.inl (List.mem_cons_of_mem a h)
    | false =>
      rw [replace_cons_of_ne hda] at h
      rcases List.mem_cons.mp h with h | h
      · exact Or.inl (h ▸ List.mem_cons_self a t)
      · rcases ih h with h | h
        · exact Or.inl (List.mem_cons_of_mem a h)
        · exact Or.inr h

theorem find?_replace_none {p : Device → Bool} {l : List Device} {d d' : Device}
    (h : l.find? p = none) (hd' : p d' = false) :
    (l.replace d d').find? p = none := by
  rw [List.find?_eq_none] at h ⊢
  intro x hx
  rcases mem_of_mem_replace hx with hm | hm
  · exact h x hm
  · subst hm
    simp [hd']

theorem truthy_some {f : String} (hf : f ≠ "") : truthy (some f) = true := by
  simp [truthy, hf]

theorem upsert_device_found_fp {db : DB} {f : String} {label ip ua : Option String}
    {now : Nat} {d : Device} (hf : f ≠ "")
    (hfp : db.devices.find? (fun x => x.device_fingerprint == some f) = some d) :
    upsert_device db (some f) label ip ua now =
      (updateFound d label ip ua now,
       { db with devices := db.devices.replace d (updateFound d label ip ua now) }) := by
  simp [upsert_device, truthy_some hf, hfp]

theorem upsert_device_fallback {db : DB} {f : String} {label ip ua : Option String}
    {now : Nat} {d : Device} (hf : f ≠ "")
    (hfp : db.devices.find? (fun x => x.device_fingerprint == some f) = none)
    (htl : truthy label = true)
    (hlb : db.devices.find? (fun x => x.label == label) = some d) :
    upsert_device db (some f) label ip ua now =
      (updateFound d label ip ua now,
       { db with devices := db.devices.replace d (updateFound d label ip ua now) }) := by
  simp [upsert_device, truthy_some hf, hfp, htl, hlb]

theorem upsert_device_creates {db : DB} {f : String} {label ip ua : Option String}
    {now : Nat} (hf : f ≠ "")
    (hfp : db.devices.find? (fun x => x.device_fingerprint == some f) = none)
    (hl : truthy label = false ∨ db.devices.find? (fun x => x.label == label) = none) :
    upsert_device db (some f) label ip ua now =
      (freshDevice db (some f) label ip ua now,
       { db with devices := db.devices ++ [freshDevice db (some f) label ip ua now],
                 nextDeviceId := db.nextDeviceId + 1 }) := by
  rcases hl with hl | hl
  · simp [upsert_device, truthy_some hf, hfp, hl]
  · cases htl : truthy label <;> simp [upsert_device, truthy_some hf, hfp, htl, hl]

theorem upsert_device_anonymous (db : DB) (ip ua : Option String) (now : Nat) :
    upsert_device db none none ip ua now =
      (freshDevice db none none ip ua now,
       { db with devices := db.devices ++ [freshDevice db none none ip ua now],
                 nextDeviceId := db.nextDeviceId + 1 }) := by
  simp [upsert_device, truthy]

theorem updateFound_id (d : Device) (label ip ua : Option String) (now : Nat) :
    (updateFound d label ip ua now).id = d.id := rfl

theorem updateFound_fp (d : Device) (label ip ua : Option String) (now : Nat) :
    (updateFound d label ip ua now).device_fingerprint = d.device_fingerprint := rfl

theorem updateFound_label_same {d : Device} {l : String} (ip ua : Option String)
    (now : Nat) (h : d.label = some l) :
    (updateFound d (some l) ip ua now).label = d.label := by
  simp [updateFound, h]

theorem infix_dropWhile (p : Char → Bool) {sub l : List Char} (hne : sub ≠ [])
    (hc : ∀ c ∈ sub, p c = false) (h : sub <:+: l) : sub <:+: l.dropWhile p := by
  induction l with
  | nil =>
    rw [List.infix_nil] at h
    exact absurd h hne
  | cons a t ih =>
    rw [List.dropWhile_cons]
    by_cases hpa : p a = true
    · rw [if_pos hpa]
      apply ih
      rcases List.infix_cons_iff.mp h with hpre | hinf
      · cases sub with
        | nil => exact absurd rfl hne
        | cons c cs =>
          rcases hpre with ⟨r, hr⟩
          rw [List.cons_append] at hr
          injection hr with h1 _
          have hfalse := hc c (List.mem_cons_self c cs)
          rw [h1, hpa] at hfalse
          cases hfalse
      · exact hinf
    · rw [if_neg hpa]
      exact h

theorem infix_reverse_of {l₁ l₂ : List Char} (h : l₁ <:+: l₂) :
    l₁.reverse <:+: l₂.reverse := by
  rcases h with ⟨u, v, huv⟩
  refine ⟨v.reverse, u.reverse, ?_⟩
  rw [← huv]
  simp

theorem py_in_strip_of_py_in {sub s : String} (hne : sub ≠ "")
    (hc : ∀ c ∈ sub.data, Char.isWhitespace c = false)
    (h : py_in sub s = true) : py_in sub (py_strip s) = true := by
  have hdne : sub.data ≠ [] := by
    intro hd
    apply hne
    cases sub with
    | mk data =>
      have hdata : data = [] := hd
      subst hdata
      rfl
  unfold py_in at h ⊢
  simp only [decide_eq_true_eq] at h ⊢
  show sub.data <:+:
    ((s.data.dropWhile Char.isWhitespace).reverse.dropWhile Char.isWhitespace).reverse
  have h1 := infix_dropWhile Char.isWhitespace hdne hc h
  have h2 := infix_reverse_of h1
  have h3 := infix_dropWhile Char.isWhitespace (by simpa using hdne)
    (fun c hcm => hc c (List.mem_reverse.mp hcm)) h2
  have h4 := infix_reverse_of h3
  simpa using h4

theorem strip_data_within (s : String) : (py_strip s).data <:+: s.data := by
  have h2 : (s.data.dropWhile Char.isWhitespace).reverse.dropWhile Char.isWhitespace <:+
      (s.data.dropWhile Char.isWhitespace).reverse := List.dropWhile_suffix _
  have h3 : ((s.data.dropWhile Char.isWhitespace).reverse.dropWhile Char.isWhitespace).reverse <:+:
      s.data.dropWhile Char.isWhitespace := by
    rcases h2 with ⟨u, hu⟩
    refine ⟨[], u.reverse, ?_⟩
    simpa using congrArg List.reverse hu
  have h4 : s.data.dropWhile Char.isWhitespace <:+: s.data := by
    rcases List.dropWhile_suffix (l := s.data) Char.isWhitespace with ⟨u, hu⟩
    exact ⟨u, [], by simpa using hu⟩
  exact h3.trans h4

theorem py_in_of_strip {sub s : String} (h : py_in sub (py_strip s) = true) :
    py_in sub s = true := by
  unfold py_in at h ⊢
  simp only [decide_eq_true_eq] at h ⊢
  exact h.trans (strip_data_within s)

theorem voice_store_put_key (fs : FileStore) (raw : List Nat) (file : UploadFile) :
    (voice_store_put fs raw file).object_key
      = _sha256_bytes raw ++ "." ++ _pick_ext file := by
  simp only [voice_store_put]
  split <;> rfl

theorem voice_store_put_mem (fs : FileStore) (raw : List Nat) (file : UploadFile) :
    ((voice_store_put fs raw file).fs
        (voice_store_put fs raw file).object_key).isSome = true := by
  simp only [voice_store_put]
  split
  · next h => simpa using h
  · next h => simp

theorem voice_store_put_of_exists {fs : FileStore} {raw : List Nat} {file : UploadFile}
    (h : (fs (_sha256_bytes raw ++ "." ++ _pick_ext file)).isSome = true) :
    voice_store_put fs raw file =
      { object_key := _sha256_bytes raw ++ "." ++ _pick_ext file,
        written := false, fs := fs } := by
  simp only [voice_store_put]
  rw [if_pos h]

theorem blob_store_put_key (fs : FileStore) (raw : List Nat) (file : UploadFile) :
    (blob_store_put fs raw file).object_key
      = _sha256_bytes raw ++ "." ++ pick_ext_from_upload file := by
  simp only [blob_store_put]
  split <;> rfl

theorem blob_store_put_mem (fs : FileStore) (raw : List Nat) (file : UploadFile) :
    ((blob_store_put fs raw file).fs
        (blob_store_put fs raw file).object_key).isSome = true := by
  simp only [blob_store_put]
  split
  · next h => simpa using h
  · next h => simp

theorem blob_store_put_of_exists {fs : FileStore} {raw : List Nat} {file : UploadFile}
    (h : (fs (_sha256_bytes raw ++ "." ++ pick_ext_from_upload file)).isSome = true) :
    blob_store_put fs raw file =
      { object_key := _sha256_bytes raw ++ "." ++ pick_ext_from_upload file,
        written := false, fs := fs } := by
  simp only [blob_store_put]
  rw [if_pos h]

/-! ## Claims -/

/-- C1 (code bug): the synchronous `_broadcast_room` calls the async
`WebSocket.send_text` without `await` (`server.py` line 190), so for every
registry, room and payload it only creates one never-executed coroutine
object per subscriber and returns `.ok`: nothing is delivered to any
connection, no send can raise, and every room's subscriber set — the
broadcast room's included — is left exactly as it was, so a dead
connection is never pruned.  This refutes the claim's delivery and
pruning guarantees on the code, while the claim matches the spec's stated
intent (best-effort fan-out with self-healing membership). -/
theorem broadcast_unawaited_no_delivery :
    ∀ (clients : RoomClients) (room : String) (payload : Event),
      ∃ r, _broadcast_room clients room payload = .ok r ∧
        r.1 = (clients room).map (fun ws => (ws, payload)) ∧
        ∀ name, r.2 name = clients name := by
  intro clients room payload
  refine ⟨_, broadcast_room_eq clients room payload, rfl, ?_⟩
  intro name
  show (if name = room then clients room else clients name) = clients name
  by_cases h : name = room
  · rw [if_pos h, h]
  · rw [if_neg h]

/-- C2 counterexample: in a room with subscribers {1, 2}, unsubscribing
connection 1 sends the decremented presence event only to the departing
connection 1; the remaining subscriber 2 receives nothing — refuting the
claim that the presence event is broadcast to all remaining subscribers of
the room. -/
theorem unsubscribe_presence_counterexample :
    (ws_unsubscribe_finally exClients (fun _ => true) "alpha" 1).2 =
      [(1, Event.presence "alpha" 1)] ∧
    (ws_unsubscribe_finally exClients (fun _ => true) "alpha" 1).1 "alpha" = [2] ∧
    ∀ pr ∈ (ws_unsubscribe_finally exClients (fun _ => true) "alpha" 1).2, pr.1 ≠ 2 := by
  decide

/-- C2 (amended): on disconnect or close, the connection is removed from
the room's subscriber set and a presence event carrying the decremented
subscriber count is then sent, best-effort, to the departing connection
only (swallowed if the send fails); remaining subscribers receive no
presence event. -/
theorem unsubscribe_presence_to_departed :
    ∀ (clients : RoomClients) (sendOk : Nat → Bool) (room : String) (ws : Nat),
      ws_unsubscribe_finally clients sendOk room ws =
        (fun name => if name = room then (clients room).filter (fun x => !(x == ws))
                     else clients name,
         if sendOk ws then
           [(ws, Event.presence room
                   (((clients room).filter (fun x => !(x == ws))).length))]
         else []) := by
  intro clients sendOk room ws
  unfold ws_unsubscribe_finally send_text
  cases h : sendOk ws <;> simp [h]

/-- C9 counterexample: a frame that is valid JSON but not a JSON object
(here the JSON array `[]`) is not silently discarded: `data.get("type")`
raises `AttributeError`, which escapes the frame-handling step and closes
the connection — refuting the claim for frames "not parseable as the
expected structured format (a JSON object of the expected shape)". -/
theorem ws_frame_nonobject_counterexample :
    (handle_ws_frame DB.empty (fun _ => []) "alpha"
        (.ok (Json.arr [])) 0 true).1 = FrameOutcome.raised .attributeError ∧
    (handle_ws_frame DB.empty (fun _ => []) "alpha"
        (.ok (Json.arr [])) 0 true).1 ≠ FrameOutcome.discarded := by
  exact ⟨rfl, by decide⟩

/-- C9 (amended): an inbound frame that is not parseable as JSON is
silently discarded — no error is sent back, no exception escapes, the
state is unchanged and the connection stays open; but a frame that parses
to a non-object JSON value raises `AttributeError` instead of being
discarded. -/
theorem ws_frame_unparseable_discarded :
    ∀ (db : DB) (clients : RoomClients) (room : String)
      (now : Nat) (storageOk : Bool),
      (handle_ws_frame db clients room (.error ()) now storageOk =
        (.discarded, db, clients, [])) ∧
      (∀ j : Json, (∀ fields, j ≠ Json.obj fields) →
        handle_ws_frame db clients room (.ok j) now storageOk =
          (.raised .attributeError, db, clients, [])) := by
  intro db clients room now storageOk
  refine ⟨rfl, ?_⟩
  intro j hj
  cases j with
  | obj fields => exact absurd rfl (hj fields)
  | arr _ => rfl
  | str _ => rfl
  | num _ => rfl
  | bool _ => rfl
  | null => rfl

/-- C9 witness: instantiating the amended claim on a concrete string frame
`"oops"` (valid JSON, not an object). -/
theorem ws_frame_unparseable_discarded_witness :
    handle_ws_frame DB.empty (fun _ => []) "alpha"
        (.ok (Json.str "oops")) 0 true =
      (.raised .attributeError, DB.empty, (fun _ => []), []) :=
  (ws_frame_unparseable_discarded DB.empty (fun _ => []) "alpha" 0
      true).2 (Json.str "oops") (fun _ h => Json.noConfusion h)

/-- C10: resolving with neither fingerprint nor label performs no lookup
and creates a brand-new device row on every call: two successive anonymous
calls append two fresh rows and return distinct device ids. -/
theorem anonymous_resolution_creates_new :
    ∀ (db : DB) (ip ua ip' ua' : Option String) (now now' : Nat),
      (upsert_device db none none ip ua now).1.id = db.nextDeviceId ∧
      (upsert_device (upsert_device db none none ip ua now).2 none none ip' ua' now').1.id
        = db.nextDeviceId + 1 ∧
      (upsert_device db none none ip ua now).1.id ≠
        (upsert_device (upsert_device db none none ip ua now).2 none none ip' ua' now').1.id ∧
      (upsert_device (upsert_device db none none ip ua now).2 none none ip' ua' now').2.devices
        = db.devices ++
            [(upsert_device db none none ip ua now).1,
             (upsert_device (upsert_device db none none ip ua now).2 none none ip' ua' now').1] := by
  intro db ip ua ip' ua' now now'
  simp only [upsert_device_anonymous]
  refine ⟨rfl, rfl, ?_, ?_⟩
  · show db.nextDeviceId ≠ db.nextDeviceId + 1
    omega
  · show (db.devices ++ [freshDevice db none none ip ua now]) ++ [_] = _
    rw [List.append_assoc]
    rfl

/-- C6: on both upload paths the content store is idempotent: the object
key is the content hash plus the chosen extension; storing the identical
payload again yields the identical key; after the first store the key
exists on disk, so the second store skips the write and leaves the store
unchanged. -/
theorem content_store_put_idempotent :
    ∀ (fs : FileStore) (raw : List Nat) (file : UploadFile),
      ((voice_store_put fs raw file).object_key
          = _sha256_bytes raw ++ "." ++ _pick_ext file) ∧
      ((voice_store_put (voice_store_put fs raw file).fs raw file).object_key
          = (voice_store_put fs raw file).object_key) ∧
      (((voice_store_put fs raw file).fs
          (voice_store_put fs raw file).object_key).isSome = true) ∧
      ((voice_store_put (voice_store_put fs raw file).fs raw file).written = false) ∧
      ((voice_store_put (voice_store_put fs raw file).fs raw file).fs
          = (voice_store_put fs raw file).fs) ∧
      ((blob_store_put fs raw file).object_key
          = _sha256_bytes raw ++ "." ++ pick_ext_from_upload file) ∧
      ((blob_store_put (blob_store_put fs raw file).fs raw file).object_key
          = (blob_store_put fs raw file).object_key) ∧
      (((blob_store_put fs raw file).fs
          (blob_store_put fs raw file).object_key).isSome = true) ∧
      ((blob_store_put (blob_store_put fs raw file).fs raw file).written = false) ∧
      ((blob_store_put (blob_store_put fs raw file).fs raw file).fs
          = (blob_store_put fs raw file).fs) := by
  intro fs raw file
  have hvm : ((voice_store_put fs raw file).fs
      (_sha256_bytes raw ++ "." ++ _pick_ext file)).isSome = true := by
    have h := voice_store_put_mem fs raw file
    rwa [voice_store_put_key] at h
  have hv2 := voice_store_put_of_exists hvm
  have hbm : ((blob_store_put fs raw file).fs
      (_sha256_bytes raw ++ "." ++ pick_ext_from_upload file)).isSome = true := by
    have h := blob_store_put_mem fs raw file
    rwa [blob_store_put_key] at h
  have hb2 := blob_store_put_of_exists hbm
  refine ⟨voice_store_put_key fs raw file, ?_, voice_store_put_mem fs raw file, ?_, ?_,
          blob_store_put_key fs raw file, ?_, blob_store_put_mem fs raw file, ?_, ?_⟩
  · rw [hv2, voice_store_put_key]
  · rw [hv2]
  · rw [hv2]
  · rw [hb2, blob_store_put_key]
  · rw [hb2]
  · rw [hb2]

/-- C3: on both ingestion paths `_broadcast_room` is invoked only after
the durable append succeeded.  (i) `POST /messages` with a failing storage
write returns the propagated error and never reaches the broadcast call;
(ii) when it succeeds, every event handed to the broadcast call (each
coroutine object it creates) carries the id of a message persisted in the
resulting database; (iii) a websocket frame handled under a failing
storage write produces no broadcast event, and (iv) a `{type:"msg"}` frame
then raises the storage error, aborting the frame; (v) every event of a
successfully processed frame's broadcast call references a message
persisted in the resulting database. -/
theorem broadcast_only_after_persist :
    ∀ (db : DB) (clients : RoomClients) (payload : MessageIn)
      (ip ua : Option String) (now : Nat),
      (post_message db clients payload ip ua now false = .error .storageWrite) ∧
      (∀ db' cl' sent mid,
        post_message db clients payload ip ua now true = .ok (db', cl', sent, mid) →
        (∃ m ∈ db'.messages, m.id = mid) ∧ ∀ pr ∈ sent, eventId pr.2 = some mid) ∧
      (∀ room parsed,
        (handle_ws_frame db clients room parsed now false).2.2.2 = []) ∧
      (∀ room fields, jget fields "type" = some (Json.str "msg") →
        (handle_ws_frame db clients room (.ok (Json.obj fields)) now false).1 =
          .raised .storageWrite) ∧
      (∀ room parsed mid db' cl' sent,
        handle_ws_frame db clients room parsed now true =
          (.processed mid, db', cl', sent) →
        (∃ m ∈ db'.messages, m.id = mid) ∧ ∀ pr ∈ sent, eventId pr.2 = some mid) := by
  intro db clients payload ip ua now
  refine ⟨rfl, ?_, ?_, ?_, ?_⟩
  · intro db' cl' sent mid h
    simp only [post_message, if_true, broadcast_room_eq, Except.ok.injEq,
      Prod.mk.injEq] at h
    obtain ⟨h1, h2, h3, h4⟩ := h
    subst h1
    subst h4
    refine ⟨⟨_, List.mem_append_right _ (List.mem_cons_self _ _), rfl⟩, ?_⟩
    intro pr hpr
    rw [← h3] at hpr
    rcases List.mem_map.mp hpr with ⟨ws, _, rfl⟩
    rfl
  · intro room parsed
    cases parsed with
    | error e => rfl
    | ok j =>
      cases j with
      | obj fields =>
        simp only [handle_ws_frame]
        cases hjt : jget fields "type" with
        | none => rfl
        | some jv =>
          cases jv with
          | str t => cases ht : (t == "msg") <;> simp [ht]
          | obj _ => rfl
          | arr _ => rfl
          | num _ => rfl
          | bool _ => rfl
          | null => rfl
      | arr _ => rfl
      | str _ => rfl
      | num _ => rfl
      | bool _ => rfl
      | null => rfl
  · intro room fields hjt
    simp [handle_ws_frame, hjt]
  · intro room parsed mid db' cl' sent h
    cases parsed with
    | error e => simp [handle_ws_frame] at h
    | ok j =>
      cases j with
      | obj fields =>
        simp only [handle_ws_frame] at h
        cases hjt : jget fields "type" with
        | none => rw [hjt] at h; simp at h
        | some jv =>
          rw [hjt] at h
          cases jv with
          | str t =>
            cases ht : (t == "msg") with
            | false => simp [ht] at h
            | true =>
              simp only [ht, if_true, broadcast_room_eq, Prod.mk.injEq,
                FrameOutcome.processed.injEq] at h
              obtain ⟨h1, h2, h3, h4⟩ := h
              subst h2
              subst h1
              refine ⟨⟨_, List.mem_append_right _ (List.mem_cons_self _ _), rfl⟩, ?_⟩
              intro pr hpr
              rw [← h4] at hpr
              rcases List.mem_map.mp hpr with ⟨ws, _, rfl⟩
              rfl
          | obj _ => simp at h
          | arr _ => simp at h
          | num _ => simp at h
          | bool _ => simp at h
          | null => simp at h
      | arr _ => simp [handle_ws_frame] at h
      | str _ => simp [handle_ws_frame] at h
      | num _ => simp [handle_ws_frame] at h
      | bool _ => simp [handle_ws_frame] at h
      | null => simp [handle_ws_frame] at h

/-- C3 witness: a failing storage write on the HTTP path returns the
storage error, and a failing storage write on a concrete `{type:"msg"}`
frame raises it. -/
theorem broadcast_only_after_persist_witness :
    post_message DB.empty exClients exMsgIn none none 7 false =
      .error .storageWrite ∧
    (handle_ws_frame DB.empty exClients "alpha"
        (.ok (Json.obj [("type", Json.str "msg")])) 7 false).1 =
      .raised .storageWrite := by
  refine ⟨(broadcast_only_after_persist DB.empty exClients exMsgIn
      none none 7).1, ?_⟩
  exact (broadcast_only_after_persist DB.empty exClients exMsgIn
      none none 7).2.2.2.1 "alpha" [("type", Json.str "msg")] rfl

/-- C4 counterexample: the database `exDB` holds no device with
fingerprint `"F"` but one fingerprint-less device (id 1) with label `"L"`.
Resolving with fingerprint `"F"` and label `"L"` returns device 1 — matched
by label — and creates no new row, refuting the claim that a call
supplying a fingerprint never falls back to matching an existing device by
label. -/
theorem upsert_label_fallback_counterexample :
    exDB.devices.find? (fun d => d.device_fingerprint == some "F") = none ∧
    (upsert_device exDB (some "F") (some "L") none none 5).1.id = 1 ∧
    (upsert_device exDB (some "F") (some "L") none none 5).2.devices.length = 1 := by
  decide

/-- C4 (amended): lookup by label is used only when the fingerprint lookup
found no device.  With a fingerprint supplied: if a device with that
fingerprint exists, it is the one resolved (the label is not used for
matching); if none exists, the resolver falls back to matching an existing
device by a supplied label; only when that also yields nothing is a fresh
device created. -/
theorem resolve_fingerprint_first :
    ∀ (db : DB) (f : String) (label ip ua : Option String) (now : Nat), f ≠ "" →
      (∀ d, db.devices.find? (fun x => x.device_fingerprint == some f) = some d →
        (upsert_device db (some f) label ip ua now).1.id = d.id) ∧
      (db.devices.find? (fun x => x.device_fingerprint == some f) = none →
        (∀ d, truthy label = true →
          db.devices.find? (fun x => x.label == label) = some d →
          (upsert_device db (some f) label ip ua now).1.id = d.id) ∧
        ((truthy label = false ∨
            db.devices.find? (fun x => x.label == label) = none) →
          (upsert_device db (some f) label ip ua now).1.id = db.nextDeviceId ∧
          (upsert_device db (some f) label ip ua now).2.devices.length
            = db.devices.length + 1)) := by
  intro db f label ip ua now hf
  refine ⟨?_, ?_⟩
  · intro d hfp
    rw [upsert_device_found_fp hf hfp]
    rfl
  · intro hfp
    refine ⟨?_, ?_⟩
    · intro d htl hlb
      rw [upsert_device_fallback hf hfp htl hlb]
      rfl
    · intro hl
      rw [upsert_device_creates hf hfp hl]
      exact ⟨rfl, by simp⟩

/-- C4 witness: instantiating the amended claim on `exDB`: fingerprint
`"F"` unmatched, label `"L"` matched — the resolver returns the
label-matched device 1. -/
theorem resolve_fingerprint_first_witness :
    (upsert_device exDB (some "F") (some "L") none none 5).1.id = 1 :=
  ((resolve_fingerprint_first exDB "F" (some "L") none none 5 (by decide)).2
      (by decide)).1
    { id := 1, device_fingerprint := none, label := some "L", user_agent := none,
      ip_first := none, ip_last := none, first_seen := 0, last_seen := 0 }
    (by decide) (by decide)

/-- C5 counterexample: starting from an empty database, register a device
by label only, then resolve twice with fingerprint `"F"` and the same
label `"L"`.  Both calls return the same device id (the label-matched
row), but the device table is left with zero rows whose fingerprint is
`"F"` — not exactly one, as the claim states: the label fallback hijacks
the fingerprinted call and the fingerprint is never attached to any row. -/
theorem resolve_twice_counterexample :
    ((upsert_device (upsert_device (upsert_device DB.empty none (some "L") none none 0).2
          (some "F") (some "L") none none 1).2
        (some "F") (some "L") none none 2).2.devices.countP
      (fun d => d.device_fingerprint == some "F")) = 0 ∧
    (upsert_device (upsert_device DB.empty none (some "L") none none 0).2
        (some "F") (some "L") none none 1).1.id =
      (upsert_device (upsert_device (upsert_device DB.empty none (some "L") none none 0).2
            (some "F") (some "L") none none 1).2
          (some "F") (some "L") none none 2).1.id := by
  decide

/-- C5 (amended): resolving twice in sequence with the same fingerprint
and unchanged label yields the same device id both times, and the second
call never inserts a row.  When additionally fingerprints are unique in
the initial table and the first call did not match an existing device
through the label fallback (its fingerprint lookup succeeded, or no label
fallback applied), the table is left with exactly one row carrying that
fingerprint. -/
theorem resolve_twice_same_fingerprint :
    ∀ (db : DB) (f : String) (label ip ua ip' ua' : Option String) (now now' : Nat),
      f ≠ "" →
      ((upsert_device db (some f) label ip ua now).1.id =
        (upsert_device (upsert_device db (some f) label ip ua now).2
            (some f) label ip' ua' now').1.id) ∧
      ((upsert_device (upsert_device db (some f) label ip ua now).2
          (some f) label ip' ua' now').2.devices.length =
        (upsert_device db (some f) label ip ua now).2.devices.length) ∧
      (db.devices.countP (fun d => d.device_fingerprint == some f) ≤ 1 →
       (db.devices.find? (fun d => d.device_fingerprint == some f) = none →
          truthy label = false ∨
          db.devices.find? (fun d => d.label == label) = none) →
       (upsert_device (upsert_device db (some f) label ip ua now).2
           (some f) label ip' ua' now').2.devices.countP
         (fun d => d.device_fingerprint == some f) = 1) := by
  intro db f label ip ua ip' ua' now now' hf
  rcases hfp : db.devices.find? (fun d => d.device_fingerprint == some f) with _ | d
  · -- fingerprint lookup found nothing on the first call
    by_cases htl : truthy label = true
    · rcases hlb : db.devices.find? (fun d => d.label == label) with _ | d
      · -- no label match either: the first call creates a fresh row
        have e1 : upsert_device db (some f) label ip ua now = _ :=
          upsert_device_creates hf hfp (Or.inr hlb)
        have hfr : (fun d => d.device_fingerprint == some f)
            (freshDevice db (some f) label ip ua now) = true :=
          beq_self_eq_true (some f)
        have hfind2 : ((db.devices ++ [freshDevice db (some f) label ip ua now]).find?
            (fun d => d.device_fingerprint == some f))
              = some (freshDevice db (some f) label ip ua now) := by
          rw [List.find?_append, hfp, Option.none_or,
              List.find?_cons_of_pos (p := fun d : Device => d.device_fingerprint == some f) _ hfr]
        have e2 : upsert_device
            { db with devices := db.devices ++ [freshDevice db (some f) label ip ua now],
                      nextDeviceId := db.nextDeviceId + 1 }
            (some f) label ip' ua' now' = _ :=
          upsert_device_found_fp hf hfind2
        rw [e1, e2]
        refine ⟨rfl, by simp, ?_⟩
        intro _ _
        show ((db.devices ++ [freshDevice db (some f) label ip ua now]).replace
            (freshDevice db (some f) label ip ua now)
            (updateFound (freshDevice db (some f) label ip ua now) label ip' ua' now')).countP
              (fun d => d.device_fingerprint == some f) = 1
        rw [countP_fp_replace_updateFound f label ip' ua' now' hfind2,
            List.countP_append,
            List.countP_eq_zero.mpr (List.find?_eq_none.mp hfp)]
        simp [List.countP_cons, hfr]
      · -- the label fallback fires on the first call
        obtain ⟨l, rfl⟩ : ∃ l, label = some l := by
          cases label with
          | none => simp [truthy] at htl
          | some l => exact ⟨l, rfl⟩
        have e1 : upsert_device db (some f) (some l) ip ua now = _ :=
          upsert_device_fallback hf hfp htl hlb
        have hbeq : (fun x => x.label == some l) d = true :=
          List.find?_some (p := fun x : Device => x.label == some l) hlb
        have hdl : d.label = some l := eq_of_beq hbeq
        have hd'l : (updateFound d (some l) ip ua now).label = d.label :=
          updateFound_label_same ip ua now hdl
        have hpfd : (fun x => x.device_fingerprint == some f) d = false := by
          have h := List.find?_eq_none.mp hfp d (List.mem_of_find?_eq_some hlb)
          simpa using h
        have hpfd' : (fun x => x.device_fingerprint == some f)
            (updateFound d (some l) ip ua now) = false := hpfd
        have hfind2 : ((db.devices.replace d (updateFound d (some l) ip ua now)).find?
            (fun x => x.device_fingerprint == some f)) = none :=
          find?_replace_none hfp hpfd'
        have hlb2 : ((db.devices.replace d (updateFound d (some l) ip ua now)).find?
            (fun x => x.label == some l)) = some (updateFound d (some l) ip ua now) := by
          apply find?_replace_found hlb
          show ((updateFound d (some l) ip ua now).label == some l) = true
          rw [hd'l, hdl]
          simp
        have e2 : upsert_device
            { db with devices := db.devices.replace d (updateFound d (some l) ip ua now) }
            (some f) (some l) ip' ua' now' = _ :=
          upsert_device_fallback hf hfind2 htl hlb2
        rw [e1, e2]
        refine ⟨rfl, by simp, ?_⟩
        intro _ hnofb
        rcases hnofb hfp with hc | hc
        · rw [htl] at hc
          cases hc
        · rw [hlb] at hc
          cases hc
    · -- label falsy: the first call creates a fresh row
      have htl' : truthy label = false := by
        cases h : truthy label with
        | true => exact absurd h htl
        | false => rfl
      have e1 : upsert_device db (some f) label ip ua now = _ :=
        upsert_device_creates hf hfp (Or.inl htl')
      have hfr : (fun d => d.device_fingerprint == some f)
          (freshDevice db (some f) label ip ua now) = true :=
        beq_self_eq_true (some f)
      have hfind2 : ((db.devices ++ [freshDevice db (some f) label ip ua now]).find?
          (fun d => d.device_fingerprint == some f))
            = some (freshDevice db (some f) label ip ua now) := by
        rw [List.find?_append, hfp, Option.none_or,
              List.find?_cons_of_pos (p := fun d : Device => d.device_fingerprint == some f) _ hfr]
      have e2 : upsert_device
          { db with devices := db.devices ++ [freshDevice db (some f) label ip ua now],
                    nextDeviceId := db.nextDeviceId + 1 }
          (some f) label ip' ua' now' = _ :=
        upsert_device_found_fp hf hfind2
      rw [e1, e2]
      refine ⟨rfl, by simp, ?_⟩
      intro _ _
      show ((db.devices ++ [freshDevice db (some f) label ip ua now]).replace
          (freshDevice db (some f) label ip ua now)
          (updateFound (freshDevice db (some f) label ip ua now) label ip' ua' now')).countP
            (fun d => d.device_fingerprint == some f) = 1
      rw [countP_fp_replace_updateFound f label ip' ua' now' hfind2,
          List.countP_append,
          List.countP_eq_zero.mpr (List.find?_eq_none.mp hfp)]
      simp [List.countP_cons, hfr]
  · -- fingerprint lookup succeeded on the first call
    have e1 : upsert_device db (some f) label ip ua now = _ :=
      upsert_device_found_fp hf hfp
    have hpfd : (fun x => x.device_fingerprint == some f) d = true :=
      List.find?_some (p := fun x : Device => x.device_fingerprint == some f) hfp
    have hpfd' : (fun x => x.device_fingerprint == some f)
        (updateFound d label ip ua now) = true := hpfd
    have hfind2 : ((db.devices.replace d (updateFound d label ip ua now)).find?
        (fun x => x.device_fingerprint == some f))
          = some (updateFound d label ip ua now) :=
      find?_replace_found hfp hpfd'
    have e2 : upsert_device
        { db with devices := db.devices.replace d (updateFound d label ip ua now) }
        (some f) label ip' ua' now' = _ :=
      upsert_device_found_fp hf hfind2
    rw [e1, e2]
    refine ⟨rfl, by simp, ?_⟩
    intro hcount _
    show ((db.devices.replace d (updateFound d label ip ua now)).replace
        (updateFound d label ip ua now)
        (updateFound (updateFound d label ip ua now) label ip' ua' now')).countP
          (fun x => x.device_fingerprint == some f) = 1
    rw [countP_fp_replace_updateFound f label ip' ua' now' hfind2,
        countP_fp_replace_updateFound f label ip ua now hfp]
    have hpos : 0 < db.devices.countP (fun x => x.device_fingerprint == some f) :=
      List.countP_pos_iff.mpr ⟨d, List.mem_of_find?_eq_some hfp, hpfd⟩
    omega

/-- C5 witness: resolving twice with fingerprint `"F"` and no label from
the empty database leaves exactly one row with that fingerprint. -/
theorem resolve_twice_same_fingerprint_witness :
    (upsert_device (upsert_device DB.empty (some "F") none none none 0).2
        (some "F") none none none 1).2.devices.countP
      (fun d => d.device_fingerprint == some "F") = 1 :=
  (resolve_twice_same_fingerprint DB.empty "F" none none none none none 0 1
      (by decide)).2.2 (by decide) (fun _ => Or.inl rfl)

/-- C7: both blob-retrieval endpoints reject any object key containing
`..` or a path separator with HTTP 400 — the guard depends only on the key,
never on the filesystem, so no filesystem access can precede it — while a
well-formed key whose blob is absent yields HTTP 404. -/
theorem get_rejects_traversal_before_fs :
    ∀ (fs : FileStore) (key : String),
      ((py_in ".." key || py_in "/" key || py_in "\\" key) = true →
        get_audio fs key = .error (.http 400) ∧
        get_blob fs key = .error (.http 400)) ∧
      (py_strip key ≠ "" →
       (py_in ".." key || py_in "/" key || py_in "\\" key) = false →
       fs (py_strip key) = none →
        get_audio fs key = .error (.http 404) ∧
        get_blob fs key = .error (.http 404)) := by
  intro fs key
  constructor
  · intro hbad
    have h400 : (py_strip key == "" || py_in "/" (py_strip key) ||
        py_in "\\" (py_strip key) || py_in ".." (py_strip key)) = true := by
      cases h1 : py_in ".." key with
      | true =>
        have hs := py_in_strip_of_py_in (by decide) (by decide) h1
        simp [hs]
      | false =>
        cases h2 : py_in "/" key with
        | true =>
          have hs := py_in_strip_of_py_in (by decide) (by decide) h2
          simp [hs]
        | false =>
          cases h3 : py_in "\\" key with
          | true =>
            have hs := py_in_strip_of_py_in (by decide) (by decide) h3
            simp [hs]
          | false =>
            rw [h1, h2, h3] at hbad
            simp at hbad
    constructor
    · simp [get_audio, _safe_key, h400]
    · simp [get_blob, h400]
  · intro hne hgood hfs
    have hdd : py_in ".." key = false := by
      cases h : py_in ".." key with
      | false => rfl
      | true => rw [h] at hgood; simp at hgood
    have hsep : py_in "/" key = false := by
      cases h : py_in "/" key with
      | false => rfl
      | true => rw [h] at hgood; simp at hgood
    have hbsep : py_in "\\" key = false := by
      cases h : py_in "\\" key with
      | false => rfl
      | true => rw [h] at hgood; simp at hgood
    have hdd' : py_in ".." (py_strip key) = false := by
      cases h : py_in ".." (py_strip key) with
      | false => rfl
      | true => rw [py_in_of_strip h] at hdd; cases hdd
    have hsep' : py_in "/" (py_strip key) = false := by
      cases h : py_in "/" (py_strip key) with
      | false => rfl
      | true => rw [py_in_of_strip h] at hsep; cases hsep
    have hbsep' : py_in "\\" (py_strip key) = false := by
      cases h : py_in "\\" (py_strip key) with
      | false => rfl
      | true => rw [py_in_of_strip h] at hbsep; cases hbsep
    have hkey : (py_strip key == "") = false := by
      simp [hne]
    have h400 : (py_strip key == "" || py_in "/" (py_strip key) ||
        py_in "\\" (py_strip key) || py_in ".." (py_strip key)) = false := by
      simp [hkey, hdd', hsep', hbsep']
    constructor
    · simp [get_audio, _safe_key, h400, hfs]
    · simp [get_blob, h400, hfs]

/-- C7 witness: `../etc/passwd` is rejected with 400 on an arbitrary
filesystem, and the well-formed absent key `a.ogg` yields 404. -/
theorem get_rejects_traversal_witness :
    get_blob (fun _ => none) "../etc/passwd" = .error (.http 400) ∧
    get_audio (fun _ => none) "a.ogg" = .error (.http 404) := by
  refine ⟨((get_rejects_traversal_before_fs (fun _ => none) "../etc/passwd").1
      (by decide)).2, ?_⟩
  exact ((get_rejects_traversal_before_fs (fun _ => none) "a.ogg").2
      (by decide) (by decide) rfl).1

/-- C8: history returns at most `limit` rows; the rows are sorted
chronologically ascending; an unknown room yields `[]`; and for a known
room the room's messages split (as a permutation) into `recent` — exactly
the rows returned, presented oldest-first — and `dropped`, where every
dropped message is no newer than every returned one. -/
theorem room_history_spec :
    ∀ (db : DB) (room_name : String) (limit : Nat),
      (db.rooms.find? (fun r => r.name == room_name) = none →
        room_history db room_name limit = []) ∧
      (room_history db room_name limit).length ≤ limit ∧
      List.Sorted (fun a b : MessageOut => a.ts ≤ b.ts)
        (room_history db room_name limit) ∧
      (∀ room, db.rooms.find? (fun r => r.name == room_name) = some room →
        ∃ recent dropped : List Message,
          (db.messages.filter (fun m => m.room_id == room.id)).Perm
            (recent ++ dropped) ∧
          (room_history db room_name limit).map
              (fun o => (o.id, o.content_type, o.content, o.file_ref, o.ts)) =
            recent.reverse.map
              (fun m => (m.id, m.content_type, m.content, m.file_ref, m.created_at)) ∧
          (∀ d ∈ dropped, ∀ r ∈ recent, d.created_at ≤ r.created_at)) := by
  intro db room_name limit
  refine ⟨?_, ?_, ?_, ?_⟩
  · intro h
    simp [room_history, h]
  · rcases hr : db.rooms.find? (fun r => r.name == room_name) with _ | room
    · simp [room_history, hr]
    · simp only [room_history, hr]
      rw [List.length_map, List.length_reverse, List.length_take]
      exact Nat.min_le_left _ _
  · rcases hr : db.rooms.find? (fun r => r.name == room_name) with _ | room
    · simp [room_history, hr]
    · simp only [room_history, hr]
      have hs : List.Pairwise tsDesc (List.insertionSort tsDesc
          (db.messages.filter (fun m => m.room_id == room.id))) :=
        List.sorted_insertionSort tsDesc _
      have ht : List.Pairwise tsDesc ((List.insertionSort tsDesc
          (db.messages.filter (fun m => m.room_id == room.id))).take limit) :=
        hs.take
      show List.Pairwise _ _
      rw [List.pairwise_map, List.pairwise_reverse]
      exact ht
  · intro room hr
    refine ⟨(List.insertionSort tsDesc
        (db.messages.filter (fun m => m.room_id == room.id))).take limit,
      (List.insertionSort tsDesc
        (db.messages.filter (fun m => m.room_id == room.id))).drop limit,
      ?_, ?_, ?_⟩
    · rw [List.take_append_drop]
      exact (List.perm_insertionSort tsDesc _).symm
    · simp only [room_history, hr]
      rw [List.map_map]
      rfl
    · intro d hd r hrm
      have hs : List.Pairwise tsDesc (List.insertionSort tsDesc
          (db.messages.filter (fun m => m.room_id == room.id))) :=
        List.sorted_insertionSort tsDesc _
      exact hs.rel_of_mem_take_of_mem_drop hrm hd

/-- C8 witness: history of a room name with no room record is empty. -/
theorem room_history_spec_witness :
    room_history DB.empty "nope" 3 = [] :=
  (room_history_spec DB.empty "nope" 3).1 rfl

end BlackRoom
